import Mathlib

/-!
Verification of the steno3d 1D line resource model (src/steno3d/line.py)
against its natural-language specification.

The data model is embedded shallowly: numpy arrays become Lean lists,
python exceptions become the Except monad, and machine integers are Int
with explicit reduction modulo two to the power 32 where the binary codec
truncates.  Functions from base.py / props.py / data.py, which are not
part of the sources, are modelled from the spec and marked as such in
their doc comments.
-/

deriving instance DecidableEq for Except

/-- A 3D point, one row of the vertices array (shape (*, 3)). -/
structure V3 where
  x : Int
  y : Int
  z : Int
deriving DecidableEq

/-- Componentwise vector addition, as numpy broadcast addition of a
3-vector offset onto each row of an (n, 3) array. -/
def vadd (a b : V3) : V3 := ⟨a.x + b.x, a.y + b.y, a.z + b.z⟩

/-- The Mesh1D geometry: vertices (shape (*, 3), dtype float) and
segments (shape (*, 2), dtype int), as declared in line.py lines 41-54. -/
structure Mesh1D where
  vertices : List V3
  segments : List (Int × Int)
deriving DecidableEq

/-- Mesh1D.nN (line.py line 62): number of nodes, the length of the
vertices array. -/
def mesh1d_nN (m : Mesh1D) : Nat := m.vertices.length

/-- Mesh1D.nC (line.py line 67): number of cells, the length of the
segments array. -/
def mesh1d_nC (m : Mesh1D) : Nat := m.segments.length

/-- All entries of the segments array in row order, as numpy reductions
(npmin, npmax) see the 2D array: a flat list of its elements. -/
def segVals (m : Mesh1D) : List Int :=
  m.segments.foldr (fun s acc => s.1 :: s.2 :: acc) []

/-- numpy.min over a flat list of elements: undefined (none) on a
zero-size array, where numpy raises a ValueError. -/
def npmin : List Int → Option Int
  | [] => none
  | v :: vs => some (vs.foldl min v)

/-- numpy.max over a flat list of elements: undefined (none) on a
zero-size array, where numpy raises a ValueError. -/
def npmax : List Int → Option Int
  | [] => none
  | v :: vs => some (vs.foldl max v)

/-- The numpy left fold with min goes below c exactly when some element
of the list, the seed included, is below c. -/
theorem foldl_min_lt_iff (c : Int) (vs : List Int) :
    ∀ v : Int, vs.foldl min v < c ↔ v < c ∨ ∃ x ∈ vs, x < c := by
  induction vs with
  | nil => intro v; simp
  | cons a vs ih =>
    intro v
    simp only [List.foldl_cons, ih (min v a), min_lt_iff, List.mem_cons]
    constructor
    · rintro (hva | ⟨x, hx, hxc⟩)
      · rcases hva with h | h
        · exact Or.inl h
        · exact Or.inr ⟨a, Or.inl rfl, h⟩
      · exact Or.inr ⟨x, Or.inr hx, hxc⟩
    · rintro (h | ⟨x, hx | hx, hxc⟩)
      · exact Or.inl (Or.inl h)
      · exact Or.inl (Or.inr (hx ▸ hxc))
      · exact Or.inr ⟨x, hx, hxc⟩

/-- The numpy left fold with max reaches c exactly when some element of
the list, the seed included, reaches c. -/
theorem le_foldl_max_iff (c : Int) (vs : List Int) :
    ∀ v : Int, c ≤ vs.foldl max v ↔ c ≤ v ∨ ∃ x ∈ vs, c ≤ x := by
  induction vs with
  | nil => intro v; simp
  | cons a vs ih =>
    intro v
    simp only [List.foldl_cons, ih (max v a), le_max_iff, List.mem_cons]
    constructor
    · rintro (hva | ⟨x, hx, hxc⟩)
      · rcases hva with h | h
        · exact Or.inl h
        · exact Or.inr ⟨a, Or.inl rfl, h⟩
      · exact Or.inr ⟨x, Or.inr hx, hxc⟩
    · rintro (h | ⟨x, hx | hx, hxc⟩)
      · exact Or.inl (Or.inl h)
      · exact Or.inl (Or.inr (hx ▸ hxc))
      · exact Or.inr ⟨x, hx, hxc⟩

/-- npmin of a nonempty list is below c exactly when some element is. -/
theorem npmin_lt_iff (c : Int) (v : Int) (vs : List Int) :
    (∃ mn, npmin (v :: vs) = some mn ∧ mn < c) ↔ ∃ x ∈ v :: vs, x < c := by
  simp only [npmin, Option.some.injEq, exists_eq_left', List.mem_cons]
  rw [foldl_min_lt_iff c vs v]
  constructor
  · rintro (h | ⟨x, hx, hxc⟩)
    · exact ⟨v, Or.inl rfl, h⟩
    · exact ⟨x, Or.inr hx, hxc⟩
  · rintro ⟨x, hx | hx, hxc⟩
    · exact Or.inl (hx ▸ hxc)
    · exact Or.inr ⟨x, hx, hxc⟩

/-- npmax of a nonempty list reaches c exactly when some element does. -/
theorem le_npmax_iff (c : Int) (v : Int) (vs : List Int) :
    (∃ mx, npmax (v :: vs) = some mx ∧ c ≤ mx) ↔ ∃ x ∈ v :: vs, c ≤ x := by
  simp only [npmax, Option.some.injEq, exists_eq_left', List.mem_cons]
  rw [le_foldl_max_iff c vs v]
  constructor
  · rintro (h | ⟨x, hx, hxc⟩)
    · exact ⟨v, Or.inl rfl, h⟩
    · exact ⟨x, Or.inr hx, hxc⟩
  · rintro ⟨x, hx | hx, hxc⟩
    · exact Or.inl (hx ▸ hxc)
    · exact Or.inr ⟨x, hx, hxc⟩

/-- A numpy ndarray viewed through the attributes Mesh1D._nbytes uses:
bytes per element (itemsize) and the two dimensions of its shape. -/
structure NpArray where
  itemsize : Nat
  shape0 : Nat
  shape1 : Nat
deriving DecidableEq

/-- numpy ndarray.nbytes: itemsize times the number of elements. -/
def NpArray.nbytes (a : NpArray) : Nat := a.itemsize * (a.shape0 * a.shape1)

/-- numpy ndarray.astype with dtype f4: same shape, 4-byte elements. -/
def NpArray.astype_f4 (a : NpArray) : NpArray := { a with itemsize := 4 }

/-- The vertices array as stored: the properties framework coerces
dtype float to 8-byte float64, shape (nN, 3). -/
def verticesArray (m : Mesh1D) : NpArray := ⟨8, m.vertices.length, 3⟩

/-- The segments array as stored: the properties framework coerces
dtype int to 8-byte int64, shape (nC, 2). -/
def segmentsArray (m : Mesh1D) : NpArray := ⟨8, m.segments.length, 2⟩

/-- Mesh1D._nbytes on a single ndarray (line.py lines 76-77):
arr.astype f4 and take nbytes of the result. -/
def mesh1d_nbytes_of (a : NpArray) : Nat := a.astype_f4.nbytes

/-- Mesh1D._nbytes with no argument (line.py lines 72-73): byte size of
the segments array plus byte size of the vertices array. -/
def mesh1d_nbytes (m : Mesh1D) : Nat :=
  mesh1d_nbytes_of (segmentsArray m) + mesh1d_nbytes_of (verticesArray m)

/-- Modelled from the spec: the single-array byte-size limit of
BinaryCodec (spec section 4.2); the constant lives in base.py, which is
not among the sources. -/
def FILE_SIZE_LIMIT : Nat := 5000000

/-- Modelled from the spec: BaseMesh._validate_file_size (base.py, not
among the sources).  Spec sections 4.2-4.3: the encoded byte size of a
single array, computed by BinaryCodec.byte_size, is compared to the
limit; exceeding it fails naming the array (PayloadTooLarge). -/
def validate_file_size (name : String) (nbytes : Nat) : Except String Bool :=
  if FILE_SIZE_LIMIT < nbytes then
    .error ("File size limit exceeded for " ++ name)
  else .ok true

/-- Mesh1D._validate_seg (line.py lines 85-93).  First npmin of the
segments array is compared with 0 (on a zero-size array numpy raises
inside npmin), then npmax with the vertex count, then the two
file-size checks run, and the validator returns true. -/
def mesh1d_validate_seg (m : Mesh1D) : Except String Bool :=
  match npmin (segVals m), npmax (segVals m) with
  | some mn, some mx =>
    if mn < 0 then .error "Segments may only have positive integers"
    else if (m.vertices.length : Int) ≤ mx then
      .error "Segments expects more vertices than provided"
    else
      match validate_file_size "segments" (mesh1d_nbytes_of (segmentsArray m)) with
      | .error e => .error e
      | .ok _ =>
        match validate_file_size "vertices" (mesh1d_nbytes_of (verticesArray m)) with
        | .error e => .error e
        | .ok _ => .ok true
  | _, _ =>
    .error "zero-size array to reduction operation minimum which has no identity"

/-- The data location choices of _LineBinder (line.py lines 138-144):
per-cell (CC) or per-node (N); the properties StringChoice coerces every
accepted synonym to one of these two tags. -/
inductive LineLocation
  | CC
  | N
deriving DecidableEq

/-- The tag string the coerced location takes, as it appears in the
error message of Line._validate_data. -/
def locString : LineLocation → String
  | .CC => "CC"
  | .N => "N"

/-- A DataArray (data.py, of which only the array content matters here):
a flat data array bound to the mesh. -/
structure DataArray where
  array : List Int
deriving DecidableEq

/-- A _LineBinder (line.py lines 136-149): data with its location. -/
structure LineBinder where
  location : LineLocation
  data : DataArray
deriving DecidableEq

/-- A Line resource (line.py lines 152-169): a Mesh1D and a list of
bound data entries. -/
structure Line where
  mesh : Mesh1D
  data : List LineBinder
deriving DecidableEq

/-- The mesh count an entry of the given location must match (line.py
lines 179-182): cell count for CC, node count for N. -/
def valid_length (m : Mesh1D) : LineLocation → Nat
  | .CC => mesh1d_nC m
  | .N => mesh1d_nN m

/-- The message of the ValueError raised by Line._validate_data (line.py
lines 184-192), with the offending index, the data length, the location
tag and the expected mesh length interpolated. -/
def data_mismatch_msg (index datalen : Nat) (loc : String) (meshlen : Nat) : String :=
  "line.data[" ++ toString index ++ "] length " ++ toString datalen ++
    " does not match " ++ loc ++ " length " ++ toString meshlen

/-- The enumerate loop of Line._validate_data (line.py lines 177-192)
from position ii on: each entry's array length is compared with the
count its location dictates, and the first mismatch raises. -/
def line_validate_data_from (m : Mesh1D) : Nat → List LineBinder → Except String Bool
  | _, [] => .ok true
  | ii, dat :: rest =>
    let vl := valid_length m dat.location
    if dat.data.array.length ≠ vl then
      .error (data_mismatch_msg ii dat.data.array.length (locString dat.location) vl)
    else line_validate_data_from m (ii + 1) rest

/-- Line._validate_data (line.py lines 174-193). -/
def line_validate_data (l : Line) : Except String Bool :=
  line_validate_data_from l.mesh 0 l.data

/-- Modelled from the spec: DataArray._nbytes (data.py, not among the
sources).  Spec section 4.2: the encoded size of a data array at the
fixed 4-byte element width. -/
def dataarray_nbytes (d : DataArray) : Nat := 4 * d.array.length

/-- Line._nbytes (line.py lines 171-172): mesh byte size plus the sum
of the byte sizes of all bound data arrays. -/
def line_nbytes (l : Line) : Nat :=
  mesh1d_nbytes l.mesh + (l.data.map (fun d => dataarray_nbytes d.data)).sum

/-- Reduction of an integer element to its 32-bit word, as the cast to
a fixed 4-byte element performed by the binary codec. -/
def toWord32 (i : Int) : Nat := (i % (4294967296 : Int)).toNat

/-- Little-endian byte quadruple of a 32-bit word. -/
def word32ToBytes (w : Nat) : List Nat :=
  [w % 256, w / 256 % 256, w / 65536 % 256, w / 16777216 % 256]

/-- Word recovered from a little-endian byte quadruple. -/
def bytesToWord32 (b0 b1 b2 b3 : Nat) : Nat :=
  b0 + 256 * b1 + 65536 * b2 + 16777216 * b3

/-- Modelled from the spec: BinaryCodec.encode (array_serializer lives
in props.py, not among the sources).  Spec section 4.2: deterministic
canonical little-endian encoding at a fixed 4-byte element width; each
element is reduced to its 32-bit representation and laid out in order. -/
def codec_encode : List Nat → List Nat
  | [] => []
  | w :: ws => word32ToBytes (w % 4294967296) ++ codec_encode ws

/-- Byte stream cut back into little-endian 32-bit words; fails when
the length is not a multiple of four. -/
def decodeWords : List Nat → Except String (List Nat)
  | [] => .ok []
  | b0 :: b1 :: b2 :: b3 :: rest =>
    match decodeWords rest with
    | .ok ws => .ok (bytesToWord32 b0 b1 b2 b3 :: ws)
    | .error e => .error e
  | _ => .error "DecodeError: byte length inconsistent with declared shape"

/-- Modelled from the spec: BinaryCodec.decode (array_download lives in
props.py, not among the sources).  Spec section 4.2: inverse of encode,
failing with a DecodeError when the byte length is inconsistent with the
declared element count times the 4-byte element width. -/
def codec_decode (count : Nat) (bytes : List Nat) : Except String (List Nat) :=
  if bytes.length = 4 * count then decodeWords bytes
  else .error "DecodeError: byte length inconsistent with declared shape"

/-- The vertices array flattened to its element words in row order, the
form the binary codec serializes. -/
def vertexWords (m : Mesh1D) : List Nat :=
  m.vertices.foldr (fun v acc => toWord32 v.x :: toWord32 v.y :: toWord32 v.z :: acc) []

/-- The segments array flattened to its element words in row order, the
form the binary codec serializes. -/
def segWords (m : Mesh1D) : List Nat :=
  m.segments.foldr (fun s acc => toWord32 s.1 :: toWord32 s.2 :: acc) []

/-- Serialized bytes of the vertices array, as handed to the dirty-file
set by the vertices serializer declared in line.py line 45. -/
def serialize_vertices (m : Mesh1D) : List Nat := codec_encode (vertexWords m)

/-- Serialized bytes of the segments array, as handed to the dirty-file
set by the segments serializer declared in line.py line 52. -/
def serialize_segments (m : Mesh1D) : List Nat := codec_encode (segWords m)

/-- A Mesh1D together with its dirty bookkeeping: the set _dirty_props
of property names whose values changed since the last confirmed sync. -/
structure Mesh1DState where
  mesh : Mesh1D
  dirty : List String
deriving DecidableEq

/-- Modelled from the spec: the resource base _get_dirty_files
(base.py, not among the sources) contributes no array files of its own
for a mesh; Mesh1D adds its two arrays on top of it. -/
def base_get_dirty_files (_force : Bool) : List (String × List Nat) := []

/-- Mesh1D._get_dirty_files (line.py lines 95-104): the base mapping,
extended with the serialized vertices when the vertices property is
dirty or force is set, then with the serialized segments when the
segments property is dirty or force is set. -/
def mesh1d_get_dirty_files (s : Mesh1DState) (force : Bool) : List (String × List Nat) :=
  let files := base_get_dirty_files force
  let files :=
    if "vertices" ∈ s.dirty ∨ force then
      files ++ [("vertices", serialize_vertices s.mesh)]
    else files
  if "segments" ∈ s.dirty ∨ force then
    files ++ [("segments", serialize_segments s.mesh)]
  else files

/-- Outcomes an external sync attempt can have; only the first is a
confirmed remote write. -/
inductive SyncOutcome
  | success
  | failure
  | partialUpload
  | cancelled
  | crashed
deriving DecidableEq

/-- Modelled from the spec: mark_synced (base.py / props.py, not among
the sources).  Spec section 4.4: clears the dirty flags on every owned
typed field of the resource. -/
def mark_synced (s : Mesh1DState) : Mesh1DState := { s with dirty := [] }

/-- Modelled from the spec: the transport protocol around one sync
attempt (spec sections 4.4 and 7).  The transport layer invokes
mark_synced only after it confirms the remote write succeeded; any
other outcome leaves the resource untouched. -/
def sync_attempt (s : Mesh1DState) : SyncOutcome → Mesh1DState
  | .success => mark_synced s
  | _ => s

/-- A foreign-format array holder exposing its array attribute, as the
OMF geometry attributes vertices.array and segments.array. -/
structure OmfVertexHolder where
  array : List V3
deriving DecidableEq

/-- A foreign-format holder for the segment index pairs. -/
structure OmfSegHolder where
  array : List (Int × Int)
deriving DecidableEq

/-- The OMF line-set geometry as consumed by Mesh1D._build_from_omf:
vertex array, segment array and the geometry's coordinate origin. -/
structure OmfGeom where
  vertices : OmfVertexHolder
  segments : OmfSegHolder
  origin : V3
deriving DecidableEq

/-- The OMF project owning the geometry, with its own origin offset. -/
structure OmfProject where
  origin : V3
deriving DecidableEq

/-- Mesh1D._build_from_omf (line.py lines 125-133): vertices are the
foreign vertices plus the geometry origin plus the project origin
(numpy broadcasts the two offsets over the rows); segments are taken
unchanged. -/
def mesh1d_build_from_omf (g : OmfGeom) (p : OmfProject) : Mesh1D :=
  { vertices := g.vertices.array.map (fun v => vadd (vadd v g.origin) p.origin),
    segments := g.segments.array }

theorem validate_file_size_ok (name : String) (n : Nat) (h : n ≤ FILE_SIZE_LIMIT) :
    validate_file_size name n = .ok true := by
  unfold validate_file_size
  rw [if_neg (Nat.not_lt.mpr h)]

/-- Membership in the row-order flattening of an index-pair list. -/
theorem mem_pairFlatten (l : List (Int × Int)) (x : Int) :
    x ∈ l.foldr (fun s acc => s.1 :: s.2 :: acc) [] ↔
      ∃ s ∈ l, x = s.1 ∨ x = s.2 := by
  induction l with
  | nil => simp
  | cons a l ih =>
    simp only [List.foldr_cons, List.mem_cons, ih, List.mem_cons]
    constructor
    · rintro (h | h | ⟨s, hs, hx⟩)
      · exact ⟨a, Or.inl rfl, Or.inl h⟩
      · exact ⟨a, Or.inl rfl, Or.inr h⟩
      · exact ⟨s, Or.inr hs, hx⟩
    · rintro ⟨s, hs | hs, hx⟩
      · subst hs
        rcases hx with h | h
        · exact Or.inl h
        · exact Or.inr (Or.inl h)
      · exact Or.inr (Or.inr ⟨s, hs, hx⟩)

theorem mem_segVals (m : Mesh1D) (x : Int) :
    x ∈ segVals m ↔ ∃ s ∈ m.segments, x = s.1 ∨ x = s.2 :=
  mem_pairFlatten m.segments x

theorem segVals_of_eq_cons (m : Mesh1D) (s : Int × Int) (ss : List (Int × Int))
    (h : m.segments = s :: ss) :
    segVals m = s.1 :: s.2 :: ss.foldr (fun t acc => t.1 :: t.2 :: acc) [] := by
  simp [segVals, h]

/-- The validator raises the negative-index error as soon as npmin is
negative, whatever follows. -/
theorem validate_seg_neg (m : Mesh1D) (v : Int) (vs : List Int)
    (hsv : segVals m = v :: vs) (hx : ∃ x ∈ segVals m, x < 0) :
    mesh1d_validate_seg m = .error "Segments may only have positive integers" := by
  rw [hsv] at hx
  unfold mesh1d_validate_seg
  rw [hsv]
  simp only [npmin, npmax]
  rw [if_pos ((foldl_min_lt_iff 0 vs v).mpr (by
    rcases hx with ⟨x, hmem, hlt⟩
    rcases List.mem_cons.mp hmem with h | h
    · exact Or.inl (h ▸ hlt)
    · exact Or.inr ⟨x, h, hlt⟩))]

/-- With no negative index, an index reaching the node count makes the
validator raise the out-of-range error. -/
theorem validate_seg_oob (m : Mesh1D) (v : Int) (vs : List Int)
    (hsv : segVals m = v :: vs) (hnoneg : ∀ x ∈ segVals m, 0 ≤ x)
    (hx : ∃ x ∈ segVals m, (m.vertices.length : Int) ≤ x) :
    mesh1d_validate_seg m = .error "Segments expects more vertices than provided" := by
  rw [hsv] at hx hnoneg
  unfold mesh1d_validate_seg
  rw [hsv]
  simp only [npmin, npmax]
  rw [if_neg, if_pos]
  · exact (le_foldl_max_iff _ vs v).mpr (by
      rcases hx with ⟨x, hmem, hle⟩
      rcases List.mem_cons.mp hmem with h | h
      · exact Or.inl (h ▸ hle)
      · exact Or.inr ⟨x, h, hle⟩)
  · intro hlt
    rcases (foldl_min_lt_iff 0 vs v).mp hlt with h | ⟨x, hmem, hlt0⟩
    · exact absurd (hnoneg v (List.mem_cons_self v vs)) (not_le.mpr h)
    · exact absurd (hnoneg x (List.mem_cons_of_mem v hmem)) (not_le.mpr hlt0)

/-- With every index in bounds and both arrays within the size limit,
the validator returns true. -/
theorem validate_seg_ok (m : Mesh1D) (v : Int) (vs : List Int)
    (hsv : segVals m = v :: vs)
    (hall : ∀ x ∈ segVals m, 0 ≤ x ∧ x < (m.vertices.length : Int))
    (hseg : mesh1d_nbytes_of (segmentsArray m) ≤ FILE_SIZE_LIMIT)
    (hver : mesh1d_nbytes_of (verticesArray m) ≤ FILE_SIZE_LIMIT) :
    mesh1d_validate_seg m = .ok true := by
  rw [hsv] at hall
  unfold mesh1d_validate_seg
  rw [hsv]
  simp only [npmin, npmax]
  rw [if_neg, if_neg]
  · rw [validate_file_size_ok _ _ hseg, validate_file_size_ok _ _ hver]
  · intro hle
    rcases (le_foldl_max_iff _ vs v).mp hle with h | ⟨x, hmem, hle'⟩
    · exact absurd (hall v (List.mem_cons_self v vs)).2 (not_lt.mpr h)
    · exact absurd (hall x (List.mem_cons_of_mem v hmem)).2 (not_lt.mpr hle')
  · intro hlt
    rcases (foldl_min_lt_iff 0 vs v).mp hlt with h | ⟨x, hmem, hlt0⟩
    · exact absurd (hall v (List.mem_cons_self v vs)).1 (not_le.mpr h)
    · exact absurd (hall x (List.mem_cons_of_mem v hmem)).1 (not_le.mpr hlt0)

/-- Concrete mesh of the spec scenario: three collinear vertices and the
two segments joining them in order. -/
def scenarioMesh : Mesh1D := ⟨[⟨0,0,0⟩, ⟨1,0,0⟩, ⟨2,0,0⟩], [(0,1),(1,2)]⟩

/-- C1: the claim as frozen is refuted at two concrete meshes.  With
vertices [[0,0,0],[1,0,0],[2,0,0]] and an empty segments array, every
connectivity index (vacuously) lies in bounds, yet the validator does
not pass: numpy's reduction raises on the zero-size array.  With the
single segment (-1, 5) and the same three vertices, index 5 is greater
than or equal to the node count 3, yet the failure carries the
negative-index message, not the out-of-range one. -/
theorem C1_counterexample :
    mesh1d_validate_seg ⟨[⟨0,0,0⟩, ⟨1,0,0⟩, ⟨2,0,0⟩], []⟩ =
      .error "zero-size array to reduction operation minimum which has no identity" ∧
    mesh1d_validate_seg ⟨[⟨0,0,0⟩, ⟨1,0,0⟩, ⟨2,0,0⟩], [(-1,5)]⟩ =
      .error "Segments may only have positive integers" := by
  constructor <;> decide

/-- C1 (amended): for every Mesh1D whose segments array is nonempty and
whose two arrays are within the file-size limit, the validator passes
exactly when every connectivity index is non-negative and strictly less
than the node count; a mesh containing any negative index fails with
the distinct negative-index error; a mesh whose indices are all
non-negative but some index reaches the node count fails with the
distinct out-of-range error. -/
theorem C1_validate_seg_bounds (m : Mesh1D) (hne : m.segments ≠ [])
    (hseg : mesh1d_nbytes_of (segmentsArray m) ≤ FILE_SIZE_LIMIT)
    (hver : mesh1d_nbytes_of (verticesArray m) ≤ FILE_SIZE_LIMIT) :
    (mesh1d_validate_seg m = .ok true ↔
      ∀ x ∈ segVals m, 0 ≤ x ∧ x < (m.vertices.length : Int)) ∧
    ((∃ x ∈ segVals m, x < 0) →
      mesh1d_validate_seg m = .error "Segments may only have positive integers") ∧
    ((∀ x ∈ segVals m, 0 ≤ x) → (∃ x ∈ segVals m, (m.vertices.length : Int) ≤ x) →
      mesh1d_validate_seg m = .error "Segments expects more vertices than provided") := by
  obtain ⟨s, ss, hss⟩ := List.exists_cons_of_ne_nil hne
  have hsv := segVals_of_eq_cons m s ss hss
  refine ⟨⟨fun hok x hx => ?_, fun hall => validate_seg_ok m _ _ hsv hall hseg hver⟩,
    fun hx => validate_seg_neg m _ _ hsv hx,
    fun hnoneg hx => validate_seg_oob m _ _ hsv hnoneg hx⟩
  by_contra hbad
  rw [Classical.not_and_iff_or_not_not] at hbad
  rcases hbad with h0 | hlen
  · rw [validate_seg_neg m _ _ hsv ⟨x, hx, not_le.mp h0⟩] at hok
    exact Except.noConfusion hok
  · by_cases hneg : ∃ y ∈ segVals m, y < 0
    · rw [validate_seg_neg m _ _ hsv hneg] at hok
      exact Except.noConfusion hok
    · push_neg at hneg
      rw [validate_seg_oob m _ _ hsv hneg ⟨x, hx, not_lt.mp hlen⟩] at hok
      exact Except.noConfusion hok

/-- Witness for C1: the scenario mesh satisfies every hypothesis of the
amended theorem, and its conclusion instantiates there. -/
theorem C1_validate_seg_bounds_witness :
    (mesh1d_validate_seg scenarioMesh = .ok true ↔
      ∀ x ∈ segVals scenarioMesh, 0 ≤ x ∧ x < (scenarioMesh.vertices.length : Int)) ∧
    ((∃ x ∈ segVals scenarioMesh, x < 0) →
      mesh1d_validate_seg scenarioMesh = .error "Segments may only have positive integers") ∧
    ((∀ x ∈ segVals scenarioMesh, 0 ≤ x) →
      (∃ x ∈ segVals scenarioMesh, (scenarioMesh.vertices.length : Int) ≤ x) →
      mesh1d_validate_seg scenarioMesh = .error "Segments expects more vertices than provided") :=
  C1_validate_seg_bounds scenarioMesh (by decide) (by decide) (by decide)

/-- C10: for every Mesh1D whose segments array is empty, the validator
never succeeds: numpy's min reduction is undefined on the zero-size
array, so the mesh fails before any bounds are examined — emptiness is
not treated as vacuously valid. -/
theorem C10_empty_segments_never_pass (m : Mesh1D) (h : m.segments = []) :
    mesh1d_validate_seg m =
      .error "zero-size array to reduction operation minimum which has no identity" := by
  unfold mesh1d_validate_seg
  have hsv : segVals m = [] := by simp [segVals, h]
  rw [hsv]
  rfl

/-- Witness for C10: a mesh with three vertices and no segments fails
with the zero-size reduction error. -/
theorem C10_empty_segments_never_pass_witness :
    mesh1d_validate_seg ⟨[⟨0,0,0⟩, ⟨1,0,0⟩, ⟨2,0,0⟩], []⟩ =
      .error "zero-size array to reduction operation minimum which has no identity" :=
  C10_empty_segments_never_pass ⟨[⟨0,0,0⟩, ⟨1,0,0⟩, ⟨2,0,0⟩], []⟩ rfl

/-- The enumerate loop from any position returns true exactly when every
remaining entry's array length matches the count its location dictates. -/
theorem validate_data_from_ok_iff (m : Mesh1D) :
    ∀ (ds : List LineBinder) (ii : Nat),
      line_validate_data_from m ii ds = .ok true ↔
        ∀ d ∈ ds, d.data.array.length = valid_length m d.location := by
  intro ds
  induction ds with
  | nil => intro ii; simp [line_validate_data_from]
  | cons d ds ih =>
    intro ii
    simp only [line_validate_data_from]
    by_cases h : d.data.array.length = valid_length m d.location
    · rw [if_neg (not_not.mpr h)]
      rw [ih (ii + 1)]
      simp [List.forall_mem_cons, h]
    · rw [if_pos h]
      constructor
      · intro hcontra
        exact absurd hcontra (by simp)
      · intro hall
        exact absurd (hall d (List.mem_cons_self d ds)) h

/-- The enumerate loop raises at the first mismatching entry: with every
entry before it matching, the result is the error naming that entry's
position, whatever comes after it. -/
theorem validate_data_from_first_fail (m : Mesh1D) (d : LineBinder)
    (hd : d.data.array.length ≠ valid_length m d.location) :
    ∀ (pre : List LineBinder) (ii : Nat) (rest : List LineBinder),
      (∀ b ∈ pre, b.data.array.length = valid_length m b.location) →
      line_validate_data_from m ii (pre ++ d :: rest) =
        .error (data_mismatch_msg (ii + pre.length) d.data.array.length
          (locString d.location) (valid_length m d.location)) := by
  intro pre
  induction pre with
  | nil =>
    intro ii rest _
    simp only [List.nil_append, line_validate_data_from, if_pos hd, List.length_nil,
      Nat.add_zero]
  | cons b pre ih =>
    intro ii rest hpre
    have hb := hpre b (List.mem_cons_self b pre)
    simp only [List.cons_append, line_validate_data_from]
    rw [if_neg (not_not.mpr hb)]
    rw [show pre.append (d :: rest) = pre ++ d :: rest from rfl]
    rw [ih (ii + 1) rest (fun b' hb' => hpre b' (List.mem_cons_of_mem b hb'))]
    rw [List.length_cons, show ii + 1 + pre.length = ii + (pre.length + 1) from by omega]

/-- Scenario line of the spec: the three-vertex two-segment mesh with a
per-cell data array of matching length 2. -/
def scenLineOk : Line := ⟨scenarioMesh, [⟨.CC, ⟨[10, 20]⟩⟩]⟩

/-- Scenario line of the spec: the same mesh with a per-cell data array
of mismatched length 3. -/
def scenLineBad : Line := ⟨scenarioMesh, [⟨.CC, ⟨[10, 20, 30]⟩⟩]⟩

/-- C2: the data validator accepts exactly when every entry's array
length equals the cell count for per-cell entries and the node count
for per-node entries; a first mismatching entry (all before it
matching) is reported with its index, the actual length, the location
tag and the expected length; on the scenario mesh (node count 3, cell
count 2) a per-cell array of length 2 validates and a per-cell array of
length 3 fails reporting expected 2 and actual 3. -/
theorem C2_validate_data_length (l : Line) :
    (line_validate_data l = .ok true ↔
      ∀ d ∈ l.data, d.data.array.length = valid_length l.mesh d.location) ∧
    (∀ (pre : List LineBinder) (d : LineBinder) (rest : List LineBinder),
      l.data = pre ++ d :: rest →
      (∀ b ∈ pre, b.data.array.length = valid_length l.mesh b.location) →
      d.data.array.length ≠ valid_length l.mesh d.location →
      line_validate_data l =
        .error (data_mismatch_msg pre.length d.data.array.length
          (locString d.location) (valid_length l.mesh d.location))) ∧
    line_validate_data scenLineOk = .ok true ∧
    line_validate_data scenLineBad =
      .error "line.data[0] length 3 does not match CC length 2" := by
  refine ⟨validate_data_from_ok_iff l.mesh l.data 0, ?_, by decide, by decide⟩
  intro pre d rest hsplit hpre hd
  unfold line_validate_data
  rw [hsplit, validate_data_from_first_fail l.mesh d hd pre 0 rest hpre, Nat.zero_add]

/-- Witness for C2: the scenario conjuncts of the theorem, instantiated
and extracted as closed facts. -/
theorem C2_validate_data_length_witness :
    line_validate_data scenLineOk = .ok true ∧
    line_validate_data scenLineBad =
      .error "line.data[0] length 3 does not match CC length 2" :=
  ⟨(C2_validate_data_length scenLineOk).2.2.1, (C2_validate_data_length scenLineOk).2.2.2⟩

/-- A line whose entries 0 and 1 are both mismatched: entry 0 is
per-cell of length 3 against cell count 2, entry 1 per-node of length 1
against node count 3. -/
def lineBothBad : Line := ⟨scenarioMesh, [⟨.CC, ⟨[1, 2, 3]⟩⟩, ⟨.N, ⟨[1]⟩⟩]⟩

/-- The same line with entry 1 replaced by a valid per-node array. -/
def lineFirstBad : Line := ⟨scenarioMesh, [⟨.CC, ⟨[1, 2, 3]⟩⟩, ⟨.N, ⟨[1, 2, 3]⟩⟩]⟩

/-- C3: the claim as frozen is refuted.  Two lines that differ only in
their second entry — mismatched in one, valid in the other — both fail
with the very same error about entry 0: the validator short-circuits at
the first mismatching entry and the second entry is never examined, so
it is not the case that every entry is checked before failing. -/
theorem C3_counterexample :
    lineBothBad.data ≠ lineFirstBad.data ∧
    line_validate_data lineBothBad =
      .error "line.data[0] length 3 does not match CC length 2" ∧
    line_validate_data lineFirstBad =
      .error "line.data[0] length 3 does not match CC length 2" := by
  refine ⟨by decide, by decide, by decide⟩

/-- C3 (amended): the data validator checks entries in order and raises
at the first mismatching entry, reporting that entry's index, length,
location tag and expected length; entries after the first failure are
not checked — the result is independent of everything that follows the
first mismatching entry. -/
theorem C3_short_circuit (m : Mesh1D) (pre : List LineBinder) (d : LineBinder)
    (rest rest2 : List LineBinder)
    (hpre : ∀ b ∈ pre, b.data.array.length = valid_length m b.location)
    (hd : d.data.array.length ≠ valid_length m d.location) :
    line_validate_data ⟨m, pre ++ d :: rest⟩ =
      .error (data_mismatch_msg pre.length d.data.array.length
        (locString d.location) (valid_length m d.location)) ∧
    line_validate_data ⟨m, pre ++ d :: rest⟩ =
      line_validate_data ⟨m, pre ++ d :: rest2⟩ := by
  unfold line_validate_data
  rw [validate_data_from_first_fail m d hd pre 0 rest hpre,
    validate_data_from_first_fail m d hd pre 0 rest2 hpre, Nat.zero_add]
  exact ⟨rfl, rfl⟩

/-- Witness for C3: the short-circuit theorem instantiated at a line
whose entry 0 is mismatched, with a valid and an invalid tail. -/
theorem C3_short_circuit_witness :
    line_validate_data ⟨scenarioMesh, [] ++ (⟨.CC, ⟨[1, 2, 3]⟩⟩ : LineBinder) :: [⟨.N, ⟨[1]⟩⟩]⟩ =
      .error (data_mismatch_msg (List.length ([] : List LineBinder)) 3 (locString .CC)
        (valid_length scenarioMesh .CC)) ∧
    line_validate_data ⟨scenarioMesh, [] ++ (⟨.CC, ⟨[1, 2, 3]⟩⟩ : LineBinder) :: [⟨.N, ⟨[1]⟩⟩]⟩ =
      line_validate_data ⟨scenarioMesh, [] ++ (⟨.CC, ⟨[1, 2, 3]⟩⟩ : LineBinder) :: [⟨.N, ⟨[1, 2, 3]⟩⟩]⟩ :=
  C3_short_circuit scenarioMesh [] ⟨.CC, ⟨[1, 2, 3]⟩⟩ [⟨.N, ⟨[1]⟩⟩] [⟨.N, ⟨[1, 2, 3]⟩⟩]
    (by intro b hb; exact absurd hb (List.not_mem_nil b)) (by decide)

/-- Case characterization of the dirty-file set: the vertices entry is
present exactly under its guard, then the segments entry under its. -/
theorem dirty_files_cases (s : Mesh1DState) (f : Bool) :
    mesh1d_get_dirty_files s f =
      (if "vertices" ∈ s.dirty ∨ f = true then [("vertices", serialize_vertices s.mesh)] else []) ++
      (if "segments" ∈ s.dirty ∨ f = true then [("segments", serialize_segments s.mesh)] else []) := by
  unfold mesh1d_get_dirty_files base_get_dirty_files
  by_cases hv : "vertices" ∈ s.dirty ∨ f = true <;>
    by_cases hs : "segments" ∈ s.dirty ∨ f = true <;>
    simp [hv, hs]

/-- C4: the dirty-file set maps an array name to that array's serialized
bytes exactly when its property is dirty or force is set: with force
both arrays are always present in declaration order; with only one of
the two arrays dirty, the mapping holds exactly that array's entry. -/
theorem C4_dirty_file_set (s : Mesh1DState) :
    mesh1d_get_dirty_files s true =
      [("vertices", serialize_vertices s.mesh), ("segments", serialize_segments s.mesh)] ∧
    (∀ f : Bool,
      ((mesh1d_get_dirty_files s f).lookup "vertices" = some (serialize_vertices s.mesh) ↔
        ("vertices" ∈ s.dirty ∨ f = true)) ∧
      ((mesh1d_get_dirty_files s f).lookup "segments" = some (serialize_segments s.mesh) ↔
        ("segments" ∈ s.dirty ∨ f = true))) ∧
    ("vertices" ∈ s.dirty → "segments" ∉ s.dirty →
      mesh1d_get_dirty_files s false = [("vertices", serialize_vertices s.mesh)]) ∧
    ("segments" ∈ s.dirty → "vertices" ∉ s.dirty →
      mesh1d_get_dirty_files s false = [("segments", serialize_segments s.mesh)]) := by
  refine ⟨?_, fun f => ?_, fun hv hs => ?_, fun hs hv => ?_⟩
  · rw [dirty_files_cases s true]
    simp
  · rw [dirty_files_cases s f]
    by_cases hv : "vertices" ∈ s.dirty ∨ f = true <;>
      by_cases hs : "segments" ∈ s.dirty ∨ f = true
    · rw [if_pos hv, if_pos hs]
      exact ⟨by simp [hv], by simp [hs, List.lookup]⟩
    · rw [if_pos hv, if_neg hs]
      exact ⟨by simp [hv], by simp [hs, List.lookup]⟩
    · rw [if_neg hv, if_pos hs]
      exact ⟨by simp [hv, List.lookup], by simp [hs, List.lookup]⟩
    · rw [if_neg hv, if_neg hs]
      exact ⟨by simp [hv, List.lookup], by simp [hs, List.lookup]⟩
  · rw [dirty_files_cases s false]
    rw [if_pos (Or.inl hv), if_neg (by simp [hs])]
    rfl
  · rw [dirty_files_cases s false]
    rw [if_neg (by simp [hv]), if_pos (Or.inl hs)]
    rfl

/-- A mesh state whose vertices property alone is dirty, as after
mutating only the vertices array. -/
def dirtyVerticesState : Mesh1DState := ⟨scenarioMesh, ["vertices"]⟩

/-- Witness for C4: on a state with only the vertices dirty, force
returns both serialized arrays and the plain call returns exactly the
vertices entry. -/
theorem C4_dirty_file_set_witness :
    mesh1d_get_dirty_files dirtyVerticesState true =
      [("vertices", serialize_vertices dirtyVerticesState.mesh),
       ("segments", serialize_segments dirtyVerticesState.mesh)] ∧
    mesh1d_get_dirty_files dirtyVerticesState false =
      [("vertices", serialize_vertices dirtyVerticesState.mesh)] :=
  ⟨(C4_dirty_file_set dirtyVerticesState).1,
   (C4_dirty_file_set dirtyVerticesState).2.2.1 (by decide) (by decide)⟩

/-- C5: dirty flags clear only through the explicit post-success
mark_synced call: every non-success outcome (failure, partial upload,
cancellation, crash) leaves the state — hence its dirty-file set —
unchanged and retryable, a confirmed success clears all dirty flags
together, and no outcome leaves a partially cleared dirty set. -/
theorem C5_dirty_clears_only_on_success (s : Mesh1DState) :
    sync_attempt s .failure = s ∧
    sync_attempt s .partialUpload = s ∧
    sync_attempt s .cancelled = s ∧
    sync_attempt s .crashed = s ∧
    (sync_attempt s .success).dirty = [] ∧
    (∀ (f : Bool) (o : SyncOutcome), o ≠ .success →
      mesh1d_get_dirty_files (sync_attempt s o) f = mesh1d_get_dirty_files s f) ∧
    (∀ o : SyncOutcome, (sync_attempt s o).dirty = s.dirty ∨ (sync_attempt s o).dirty = []) := by
  refine ⟨rfl, rfl, rfl, rfl, rfl, fun f o ho => ?_, fun o => ?_⟩
  · cases o with
    | success => exact absurd rfl ho
    | failure => rfl
    | partialUpload => rfl
    | cancelled => rfl
    | crashed => rfl
  · cases o with
    | success => exact Or.inr rfl
    | failure => exact Or.inl rfl
    | partialUpload => exact Or.inl rfl
    | cancelled => exact Or.inl rfl
    | crashed => exact Or.inl rfl

/-- Witness for C5: on the state with dirty vertices, a crashed upload
leaves the dirty-file set untouched and a success clears the flags. -/
theorem C5_dirty_clears_only_on_success_witness :
    mesh1d_get_dirty_files (sync_attempt dirtyVerticesState .crashed) false =
      mesh1d_get_dirty_files dirtyVerticesState false ∧
    (sync_attempt dirtyVerticesState .success).dirty = [] :=
  ⟨(C5_dirty_clears_only_on_success dirtyVerticesState).2.2.2.2.2.1 false .crashed (by decide),
   (C5_dirty_clears_only_on_success dirtyVerticesState).2.2.2.2.1⟩

/-- C6: the byte size of a Line is the byte size of its mesh plus the
sum of the byte sizes of all its bound data arrays, and the byte size
of a Mesh1D is the byte size of the segments array plus the byte size
of the vertices array; on the scenario line (3 nodes, 2 cells, one
per-cell array of length 2) this makes 16 + 36 + 8 = 60 bytes. -/
theorem C6_nbytes_sum (l : Line) :
    line_nbytes l =
      mesh1d_nbytes l.mesh + (l.data.map (fun d => dataarray_nbytes d.data)).sum ∧
    (∀ m : Mesh1D,
      mesh1d_nbytes m =
        mesh1d_nbytes_of (segmentsArray m) + mesh1d_nbytes_of (verticesArray m)) ∧
    line_nbytes scenLineOk = 60 := by
  refine ⟨rfl, fun m => rfl, by decide⟩

/-- C7: the foreign-format builder translates the vertices by both the
geometry origin and the owning project origin — row by row, vertex i of
the result is vertex i of the foreign array plus the two offsets — and
takes the segments array unchanged. -/
theorem C7_build_from_omf (g : OmfGeom) (p : OmfProject) :
    (mesh1d_build_from_omf g p).vertices =
      g.vertices.array.map (fun v => vadd (vadd v g.origin) p.origin) ∧
    (mesh1d_build_from_omf g p).segments = g.segments.array ∧
    (∀ i : Nat,
      (mesh1d_build_from_omf g p).vertices.get? i =
        (g.vertices.array.get? i).map (fun v => vadd (vadd v g.origin) p.origin)) := by
  refine ⟨rfl, rfl, fun i => ?_⟩
  simp [mesh1d_build_from_omf]

/-- Words below two to the 32 survive the modular reduction encode
performs. -/
theorem toWord32_lt (i : Int) : toWord32 i < 4294967296 := by
  unfold toWord32
  have h1 : 0 ≤ i % 4294967296 := Int.emod_nonneg i (by norm_num)
  have h2 : i % 4294967296 < 4294967296 := Int.emod_lt_of_pos i (by norm_num)
  omega

/-- Reassembling the four little-endian bytes of a word below two to
the 32 recovers the word. -/
theorem bytesToWord32_of_bytes (w : Nat) (h : w < 4294967296) :
    bytesToWord32 (w % 256) (w / 256 % 256) (w / 65536 % 256) (w / 16777216 % 256) = w := by
  unfold bytesToWord32
  omega

/-- Decoding inverts encoding on any word list within the 32-bit
element precision. -/
theorem decodeWords_encode (ws : List Nat) (h : ∀ w ∈ ws, w < 4294967296) :
    decodeWords (codec_encode ws) = .ok ws := by
  induction ws with
  | nil => rfl
  | cons w ws ih =>
    have hw : w < 4294967296 := h w (List.mem_cons_self w ws)
    have hmod : w % 4294967296 = w := Nat.mod_eq_of_lt hw
    simp only [codec_encode, hmod, word32ToBytes, List.cons_append, List.nil_append]
    simp only [decodeWords, ih (fun x hx => h x (List.mem_cons_of_mem w hx))]
    rw [bytesToWord32_of_bytes w hw]

/-- Encoding produces four bytes per element. -/
theorem codec_encode_length (ws : List Nat) :
    (codec_encode ws).length = 4 * ws.length := by
  induction ws with
  | nil => rfl
  | cons w ws ih =>
    simp only [codec_encode, word32ToBytes, List.length_append, List.length_cons, ih,
      List.length_nil]
    omega

/-- The flattened vertex words: three words per vertex, each within the
32-bit element precision. -/
theorem vertexWords_spec (l : List V3) :
    (l.foldr (fun v acc => toWord32 v.x :: toWord32 v.y :: toWord32 v.z :: acc) []).length =
      3 * l.length ∧
    ∀ w ∈ l.foldr (fun v acc => toWord32 v.x :: toWord32 v.y :: toWord32 v.z :: acc) [],
      w < 4294967296 := by
  induction l with
  | nil => exact ⟨rfl, by simp⟩
  | cons v l ih =>
    refine ⟨?_, ?_⟩
    · simp only [List.foldr_cons, List.length_cons, ih.1]
      omega
    · intro w hw
      simp only [List.foldr_cons, List.mem_cons] at hw
      rcases hw with rfl | rfl | rfl | hw
      · exact toWord32_lt v.x
      · exact toWord32_lt v.y
      · exact toWord32_lt v.z
      · exact ih.2 w hw

/-- The flattened segment words: two words per segment, each within the
32-bit element precision. -/
theorem segWords_spec (l : List (Int × Int)) :
    (l.foldr (fun s acc => toWord32 s.1 :: toWord32 s.2 :: acc) []).length = 2 * l.length ∧
    ∀ w ∈ l.foldr (fun s acc => toWord32 s.1 :: toWord32 s.2 :: acc) [], w < 4294967296 := by
  induction l with
  | nil => exact ⟨rfl, by simp⟩
  | cons s l ih =>
    refine ⟨?_, ?_⟩
    · simp only [List.foldr_cons, List.length_cons, ih.1]
      omega
    · intro w hw
      simp only [List.foldr_cons, List.mem_cons] at hw
      rcases hw with rfl | rfl | hw
      · exact toWord32_lt s.1
      · exact toWord32_lt s.2
      · exact ih.2 w hw

/-- C8: for every mesh, decoding the canonical encoded bytes of the
vertices array at its declared element count yields the element words
back, and likewise for the connectivity array: decode after encode is
the identity within the declared 32-bit element precision. -/
theorem C8_decode_encode_round_trip (m : Mesh1D) :
    codec_decode (3 * m.vertices.length) (serialize_vertices m) = .ok (vertexWords m) ∧
    codec_decode (2 * m.segments.length) (serialize_segments m) = .ok (segWords m) := by
  have hv := vertexWords_spec m.vertices
  have hs := segWords_spec m.segments
  constructor
  · unfold codec_decode serialize_vertices
    rw [if_pos (by rw [codec_encode_length, show vertexWords m =
      m.vertices.foldr (fun v acc => toWord32 v.x :: toWord32 v.y :: toWord32 v.z :: acc) []
      from rfl, hv.1])]
    exact decodeWords_encode (vertexWords m) hv.2
  · unfold codec_decode serialize_segments
    rw [if_pos (by rw [codec_encode_length, show segWords m =
      m.segments.foldr (fun s acc => toWord32 s.1 :: toWord32 s.2 :: acc) [] from rfl, hs.1])]
    exact decodeWords_encode (segWords m) hs.2

/-- C9: the byte size Mesh1D._nbytes reports comes from the cast to
4-byte f4 elements, whatever the stored itemsize of the array was: a
3-wide array of any itemsize reports 12 bytes per row and a 2-wide one
8 bytes per row, so a mesh reports 8 bytes per cell plus 12 per node,
while the segments array at its native 8-byte integer width would
occupy 16 bytes per cell. -/
theorem C9_f4_cast_size (w rows3 rows2 : Nat) :
    mesh1d_nbytes_of ⟨w, rows3, 3⟩ = 12 * rows3 ∧
    mesh1d_nbytes_of ⟨w, rows2, 2⟩ = 8 * rows2 ∧
    (∀ m : Mesh1D, mesh1d_nbytes m = 8 * mesh1d_nC m + 12 * mesh1d_nN m) ∧
    (∀ m : Mesh1D, (segmentsArray m).nbytes = 16 * mesh1d_nC m) := by
  refine ⟨?_, ?_, fun m => ?_, fun m => ?_⟩ <;>
    simp [mesh1d_nbytes_of, mesh1d_nbytes, NpArray.astype_f4, NpArray.nbytes,
      segmentsArray, verticesArray, mesh1d_nC, mesh1d_nN] <;> ring
